import Mathlib

set_option maxHeartbeats 1000000

namespace DisplaySpinnakerFrames

/-- Number of nanoseconds in a second, used for the FPS calculation
(source: const int ns_per_second = 1000000000). -/
def ns_per_second : Nat := 1000000000

/-- Image width (source: const int cols = 1000). -/
def cols : Nat := 1000

/-- Image height (source: const int rows = 400). -/
def rows : Nat := 400

/-- The frame-generation loop of one iteration: for i in [0, w*h),
img_raw[i] = rand() % 255.  The pseudo-random source rand() is modelled as
an arbitrary sequence of naturals, indexed by call number within the
iteration; the resulting buffer contents are the list of written bytes in
index order. -/
def fill (randv : Nat → Nat) (w h : Nat) : List Nat :=
  (List.range (w * h)).map (fun i => randv i % 255)

/-- The write trace of the frame-generation loop: the ordered sequence of
(index, value) stores performed into img_raw. -/
def fillTrace (randv : Nat → Nat) (w h : Nat) : List (Nat × Nat) :=
  (List.range (w * h)).map (fun i => (i, randv i % 255))

/-- The FPS-calculation state kept across loop iterations:
time_of_last_fps_calculation (a steady-clock timestamp, in nanoseconds) and
frames_since_last_fps_calculation. -/
structure RateState where
  time_of_last_fps_calculation : Nat
  frames_since_last_fps_calculation : Nat
  deriving Repr, DecidableEq

/-- One execution of the FPS branch at the end of a loop iteration
(source lines 97-112): diff_ns = current_time - time_of_last_fps_calculation;
if diff_ns > ns_per_second then print the tally, reset it to 0 and set the
timestamp to now, else increment the tally.  Returns the new state and the
emitted report, if any. -/
def tick (s : RateState) (current_time : Nat) : RateState × Option Nat :=
  if current_time - s.time_of_last_fps_calculation > ns_per_second then
    (⟨current_time, 0⟩, some s.frames_since_last_fps_calculation)
  else
    (⟨s.time_of_last_fps_calculation, s.frames_since_last_fps_calculation + 1⟩, none)

/-- Iterate tick over a list of observation times, collecting the emitted
FPS reports in order. -/
def runTicks : RateState → List Nat → RateState × List Nat
  | s, [] => (s, [])
  | s, t :: ts =>
    let p := tick s t
    let q := runTicks p.1 ts
    (q.1, p.2.toList ++ q.2)

/-- The non-owning image wrapper constructed in the loop
(source: Mat img(rows, cols, CV_8UC1, img_raw)): dimensions and channel
count describing how the shared buffer is interpreted; it stores no pixel
data of its own. -/
structure FrameView where
  v_rows : Nat
  v_cols : Nat
  channels : Nat
  deriving Repr, DecidableEq

/-- The complete mutable state of the program visible across iterations:
the frame buffer img_raw, the display surface contents (the pixels last
shown by imshow), the console output (list of reported FPS values), the
FPS-calculation state, and the streaming flag. -/
structure ProgState where
  img_raw : List Nat
  screen : List Nat
  output : List Nat
  rate : RateState
  streaming : Bool
  deriving Repr, DecidableEq

/-- What imshow reads from the buffer through the view: the v_rows*v_cols
bytes starting at the buffer pointer. -/
def render (v : FrameView) (buf : List Nat) : List Nat :=
  buf.take (v.v_rows * v.v_cols)

/-- Displaying the frame (imshow + waitKey(1)): the only mutation is to the
display surface, which receives the pixels read through the view. -/
def presentStep (v : FrameView) (s : ProgState) : ProgState :=
  { s with screen := render v s.img_raw }

/-- One iteration of the while(streaming) loop body, as written in the
source: fill img_raw from rand, construct the Mat wrapper (anew, each
iteration), display, then run the FPS branch at the current time. -/
def iterBody (rv : Nat → Nat) (t : Nat) (s : ProgState) : ProgState :=
  let s1 := { s with img_raw := fill rv cols rows }
  let img : FrameView := ⟨rows, cols, 1⟩
  let s2 := presentStep img s1
  let p := tick s2.rate t
  { s2 with rate := p.1, output := s2.output ++ p.2.toList }

/-- A variant of the loop body in which the Mat wrapper is not constructed
inside the iteration but supplied from outside (hoisted before the loop). -/
def iterBodyHoisted (v : FrameView) (rv : Nat → Nat) (t : Nat) (s : ProgState) : ProgState :=
  let s1 := { s with img_raw := fill rv cols rows }
  let s2 := presentStep v s1
  let p := tick s2.rate t
  { s2 with rate := p.1, output := s2.output ++ p.2.toList }

/-- Up to n iterations of the while(streaming) loop: the flag is checked
once at each iteration boundary; k indexes the iteration so each iteration
draws its own rand values (rv k) and observes its own clock time (ts k). -/
def run (rv : Nat → Nat → Nat) (ts : Nat → Nat) : Nat → Nat → ProgState → ProgState
  | _, 0, s => s
  | k, n + 1, s =>
    if s.streaming then run rv ts (k + 1) n (iterBody (rv k) (ts k) s) else s

/-- The hoisted-wrapper variant of run, using one FrameView constructed
before the loop. -/
def runHoisted (v : FrameView) (rv : Nat → Nat → Nat) (ts : Nat → Nat) :
    Nat → Nat → ProgState → ProgState
  | _, 0, s => s
  | k, n + 1, s =>
    if s.streaming then runHoisted v rv ts (k + 1) n (iterBodyHoisted v (rv k) (ts k) s) else s

/-- The exit behaviour of main within a fuel bound: some 0 when the loop
has fallen through (streaming observed false at an iteration boundary,
after which main returns 0), none while the loop is still running when the
fuel runs out. -/
def mainExit (rv : Nat → Nat → Nat) (ts : Nat → Nat) : Nat → Nat → ProgState → Option Nat
  | _, 0, s => if s.streaming then none else some 0
  | k, n + 1, s =>
    if s.streaming then mainExit rv ts (k + 1) n (iterBody (rv k) (ts k) s) else some 0

/-- The hoisted-wrapper variant of mainExit. -/
def mainExitHoisted (v : FrameView) (rv : Nat → Nat → Nat) (ts : Nat → Nat) :
    Nat → Nat → ProgState → Option Nat
  | _, 0, s => if s.streaming then none else some 0
  | k, n + 1, s =>
    if s.streaming then mainExitHoisted v rv ts (k + 1) n (iterBodyHoisted v (rv k) (ts k) s)
    else some 0

/-- The initial program state at entry to the loop: empty buffer contents
modelled as the zero-initialised static array, blank surfaces, tally 0,
streaming = true. -/
def st0 : ProgState :=
  ⟨List.replicate 400000 0, [], [], ⟨0, 0⟩, true⟩

/-- st0 with the streaming flag externally flipped to false. -/
def stOff : ProgState :=
  { st0 with streaming := false }

/-- Every byte produced by the frame generator is strictly below 255,
because each written value is rand() % 255. -/
theorem fill_mem_lt (rv : Nat → Nat) (w h : Nat) : ∀ x ∈ fill rv w h, x < 255 := by
  intro x hx
  simp only [fill, List.mem_map, List.mem_range] at hx
  obtain ⟨i, _, hi⟩ := hx
  omega

/-- Claim C1 counterexample: the claim asserts every value in [0,255],
including 255, occurs under a uniform random source; but even when the
random source returns 255 (or any value congruent to 0 mod 255), the byte
written is rand % 255, so 255 never appears in the generated frame. -/
theorem fill_never_writes_255_cex :
    255 ∉ fill (fun _ => 255) cols rows := by
  intro h
  have := fill_mem_lt (fun _ => 255) cols rows 255 h
  omega

/-- Claim C1 (amended): in every iteration of the capture loop, fill writes
exactly width*height sample bytes into the frame buffer, each equal to
rand % 255 and hence lying in [0,254]; the value 255 is never written, so
the samples are not uniform over [0,255]. -/
theorem fill_length_and_byte_range (rv : Nat → Nat) (w h : Nat) :
    (fill rv w h).length = w * h ∧ ∀ x ∈ fill rv w h, x ≤ 254 := by
  constructor
  · simp [fill]
  · intro x hx
    have := fill_mem_lt rv w h x hx
    omega

/-- Claim C1 witness: evaluating at a concrete random source and frame
size, the membership hypothesis is discharged on a concrete byte. -/
theorem fill_length_and_byte_range_witness :
    (fill (fun _ => 3) 2 2).length = 2 * 2 ∧ (3 : Nat) ≤ 254 :=
  ⟨(fill_length_and_byte_range (fun _ => 3) 2 2).1,
   (fill_length_and_byte_range (fun _ => 3) 2 2).2 3 (by decide)⟩

/-- Claim C10: each sample written to the frame buffer equals rand % 255,
hence lies in [0,254]; the byte value 255 is never written to any buffer
position. -/
theorem fill_values_are_rand_mod_255 (rv : Nat → Nat) (w h : Nat) :
    (∀ i, i < w * h → (fill rv w h).getD i 0 = rv i % 255) ∧
    ∀ x ∈ fill rv w h, x ≠ 255 := by
  constructor
  · intro i hi
    simp [fill, List.getD, List.getElem?_map, List.getElem?_range, hi]
  · intro x hx
    have := fill_mem_lt rv w h x hx
    omega

/-- Claim C10 witness: at a concrete random source, frame size and index,
the written byte is the rand value mod 255, and a concrete frame byte is
not 255. -/
theorem fill_values_are_rand_mod_255_witness :
    (fill (fun i => i) 2 3).getD 4 0 = 4 % 255 ∧ (0 : Nat) ≠ 255 :=
  ⟨(fill_values_are_rand_mod_255 (fun i => i) 2 3).1 4 (by decide),
   (fill_values_are_rand_mod_255 (fun i => i) 2 3).2 0 (by decide)⟩

/-- Claim C5: the frame-generation loop performs exactly width*height
writes, one to each index of [0, width*height) in order, and touches no
index outside that range; with the program dimensions cols*rows, every
written index is below 400000, the size of img_raw. -/
theorem fill_writes_in_bounds (rv : Nat → Nat) (w h : Nat) :
    (fillTrace rv w h).length = w * h ∧
    ((fillTrace rv w h).map Prod.fst = List.range (w * h)) ∧
    (∀ p ∈ fillTrace rv w h, p.1 < w * h) ∧
    (∀ q ∈ fillTrace rv cols rows, q.1 < 400000) := by
  refine ⟨by simp [fillTrace], ?_, ?_, ?_⟩
  · simp only [fillTrace, List.map_map]
    have hid : (Prod.fst ∘ fun i => (i, rv i % 255)) = id := rfl
    rw [hid, List.map_id]
  · intro p hp
    simp only [fillTrace, List.mem_map, List.mem_range] at hp
    obtain ⟨i, hilt, hi⟩ := hp
    subst hi
    exact hilt
  · intro q hq
    simp only [fillTrace, List.mem_map, List.mem_range] at hq
    obtain ⟨i, hilt, hi⟩ := hq
    subst hi
    simpa [cols, rows] using hilt

/-- Claim C5 witness: at a concrete random source and frame size the
membership hypotheses are discharged on concrete write-trace entries. -/
theorem fill_writes_in_bounds_witness :
    ((0, 7 % 255) : Nat × Nat).1 < 2 * 2 ∧ ((0, 7 % 255) : Nat × Nat).1 < 400000 :=
  ⟨(fill_writes_in_bounds (fun _ => 7) 2 2).2.2.1 (0, 7 % 255) (by decide),
   (fill_writes_in_bounds (fun _ => 7) 2 2).2.2.2 (0, 7 % 255)
     (by
       have h0 : (0 : Nat) ∈ List.range (cols * rows) :=
         List.mem_range.mpr (by norm_num [cols, rows])
       exact List.mem_map.mpr ⟨0, h0, rfl⟩)⟩

/-- While every observed elapsed time stays at most one second, the FPS
branch only increments: the tally grows by the number of ticks, the report
timestamp is unchanged, and no report is emitted. -/
theorem runTicks_accumulate (t0 c : Nat) (times : List Nat)
    (hin : ∀ t ∈ times, t - t0 ≤ ns_per_second) :
    runTicks ⟨t0, c⟩ times = (⟨t0, c + times.length⟩, []) := by
  induction times generalizing c with
  | nil => simp [runTicks]
  | cons t ts ih =>
    have ht : ¬ (t - t0 > ns_per_second) := by
      have := hin t (by simp)
      omega
    have hrest : ∀ u ∈ ts, u - t0 ≤ ns_per_second := fun u hu => hin u (by simp [hu])
    simp only [runTicks, tick, if_neg ht]
    rw [ih (c + 1) hrest]
    simp
    omega

/-- Claim C2: starting from a fresh window (tally 0, report timestamp t0),
N ticks each with elapsed time at most one second leave the tally at N with
no report; a subsequent tick with elapsed time strictly greater than one
second emits a report whose value is N, resets the tally to 0, and sets the
report timestamp to the current time. -/
theorem rate_window_reports_N (t0 N tlast : Nat) (times : List Nat)
    (hlen : times.length = N)
    (hin : ∀ t ∈ times, t - t0 ≤ ns_per_second)
    (hout : tlast - t0 > ns_per_second) :
    runTicks ⟨t0, 0⟩ times = (⟨t0, N⟩, []) ∧
    tick ⟨t0, N⟩ tlast = (⟨tlast, 0⟩, some N) := by
  constructor
  · rw [runTicks_accumulate t0 0 times hin, hlen]
    simp
  · simp [tick, hout]

/-- Claim C2 witness: three ticks within the first second followed by one
just past it report the value 3 and reset the state. -/
theorem rate_window_reports_N_witness :
    runTicks ⟨0, 0⟩ [1, 2, 3] = (⟨0, 3⟩, []) ∧
    tick ⟨0, 3⟩ 1000000001 = (⟨1000000001, 0⟩, some 3) :=
  rate_window_reports_N 0 3 1000000001 [1, 2, 3] (by decide)
    (by intro t ht; fin_cases ht <;> simp [ns_per_second])
    (by simp [ns_per_second])

/-- Claim C3: a tick arriving exactly at the one-second mark does not
report (the tally is incremented instead), while a tick arriving one second
plus any positive amount after the report timestamp does report: the
condition diff_ns.count() > ns_per_second is strict greater-than. -/
theorem rate_boundary_strict (s : RateState) (eps : Nat) (heps : 0 < eps) :
    tick s (s.time_of_last_fps_calculation + ns_per_second) =
      (⟨s.time_of_last_fps_calculation, s.frames_since_last_fps_calculation + 1⟩, none) ∧
    tick s (s.time_of_last_fps_calculation + ns_per_second + eps) =
      (⟨s.time_of_last_fps_calculation + ns_per_second + eps, 0⟩,
        some s.frames_since_last_fps_calculation) := by
  constructor
  · have hb : ¬ (s.time_of_last_fps_calculation + ns_per_second -
        s.time_of_last_fps_calculation > ns_per_second) := by omega
    simp [tick, hb]
  · have hb : s.time_of_last_fps_calculation + ns_per_second + eps -
        s.time_of_last_fps_calculation > ns_per_second := by omega
    simp [tick, hb]

/-- Claim C3 witness: at timestamp 0 with tally 5, a tick at exactly one
second only increments, and a tick one nanosecond later reports 5. -/
theorem rate_boundary_strict_witness :
    tick ⟨0, 5⟩ (0 + ns_per_second) = (⟨0, 5 + 1⟩, none) ∧
    tick ⟨0, 5⟩ (0 + ns_per_second + 1) = (⟨0 + ns_per_second + 1, 0⟩, some 5) :=
  rate_boundary_strict ⟨0, 5⟩ 1 (by decide)

/-- Over any run of the FPS branch, the reports emitted plus the residual
tally plus one uncounted frame per report account for every frame and the
initial tally: sum of reports + number of reports + final tally
= initial tally + number of frames. -/
theorem runTicks_conservation (s : RateState) (ts : List Nat) :
    (runTicks s ts).2.sum + (runTicks s ts).2.length +
      (runTicks s ts).1.frames_since_last_fps_calculation =
      s.frames_since_last_fps_calculation + ts.length := by
  induction ts generalizing s with
  | nil => simp [runTicks]
  | cons t rest ih =>
    by_cases hc : t - s.time_of_last_fps_calculation > ns_per_second
    · simp only [runTicks, tick, if_pos hc, Option.toList_some]
      have := ih ⟨t, 0⟩
      simp only [List.sum_cons, List.length_cons, List.length]
      simp at this ⊢
      omega
    · simp only [runTicks, tick, if_neg hc, Option.toList_none]
      have := ih ⟨s.time_of_last_fps_calculation, s.frames_since_last_fps_calculation + 1⟩
      simp at this ⊢
      omega

/-- Claim C4 counterexample: after a single frame processed without a
report (one tick within the first second from the initial state), the sum
of reported values is 0 but total frames minus number of reports is 1, so
the claimed equality fails as stated. -/
theorem fps_sum_cex :
    ¬ ((runTicks ⟨0, 0⟩ [1]).2.sum =
        ([1] : List Nat).length - (runTicks ⟨0, 0⟩ [1]).2.length) := by
  decide

/-- Claim C4 (amended): in every iteration exactly one of the two actions
happens, an increment of the tally by 1 with no report, or a report of the
current tally with the tally reset to 0, never both; consequently the sum
of all reported values plus the number of reports plus the tally left at
the end equals the initial tally plus the total number of frames processed
(so the sum equals total frames minus number of reports exactly when the
run starts and ends with tally 0). -/
theorem rate_exclusive_and_sum (s : RateState) (t : Nat) (ts : List Nat) :
    (((tick s t).2 = none ∧
        (tick s t).1.frames_since_last_fps_calculation =
          s.frames_since_last_fps_calculation + 1) ∨
      ((tick s t).2 = some s.frames_since_last_fps_calculation ∧
        (tick s t).1.frames_since_last_fps_calculation = 0)) ∧
    (runTicks s ts).2.sum + (runTicks s ts).2.length +
      (runTicks s ts).1.frames_since_last_fps_calculation =
      s.frames_since_last_fps_calculation + ts.length := by
  refine ⟨?_, runTicks_conservation s ts⟩
  by_cases hc : t - s.time_of_last_fps_calculation > ns_per_second
  · right
    simp [tick, hc]
  · left
    simp [tick, hc]

/-- A concrete all-zero clock/random sequence used to instantiate theorems. -/
def czero : Nat → Nat := fun _ => 0

/-- A concrete per-iteration random stream that always returns 0. -/
def rvzero : Nat → Nat → Nat := fun _ _ => 0

/-- Claim C6: presenting the frame (wrapping the buffer in a view and
rendering it) never mutates the frame buffer, the rate-counter state, the
console output or the streaming flag, and doing it twice in a row with the
same view is the same as doing it once: its only effect is on the display
surface. -/
theorem present_readonly (v : FrameView) (s : ProgState) :
    (presentStep v s).img_raw = s.img_raw ∧
    (presentStep v s).rate = s.rate ∧
    (presentStep v s).output = s.output ∧
    (presentStep v s).streaming = s.streaming ∧
    presentStep v (presentStep v s) = presentStep v s := by
  simp [presentStep]

/-- The loop body always leaves img_raw holding exactly cols*rows bytes:
the buffer handed to the display is the freshly generated frame. -/
theorem iterBody_img_len (rv1 : Nat → Nat) (t : Nat) (s : ProgState) :
    (iterBody rv1 t s).img_raw.length = cols * rows := by
  simp [iterBody, presentStep, fill]

/-- Any number of loop iterations preserves the 400000-byte frame length. -/
theorem run_img_len (rv : Nat → Nat → Nat) (ts : Nat → Nat) (k n : Nat)
    (s : ProgState) (h : s.img_raw.length = 400000) :
    (run rv ts k n s).img_raw.length = 400000 := by
  induction n generalizing k s with
  | zero => simpa [run] using h
  | succ n ih =>
    simp only [run]
    by_cases hs : s.streaming
    · rw [if_pos hs]
      exact ih _ _ (by rw [iterBody_img_len]; norm_num [cols, rows])
    · rw [if_neg hs]
      exact h

/-- Claim C7: every frame handed to the display has length exactly
width*height; with width cols = 1000 and height rows = 400 that is 400000,
and the length is invariant across all iterations of the loop. -/
theorem frame_length_invariant (rv1 : Nat → Nat) (t : Nat) (s : ProgState)
    (rv : Nat → Nat → Nat) (ts : Nat → Nat) (k n : Nat) :
    (iterBody rv1 t s).img_raw.length = cols * rows ∧
    cols * rows = 400000 ∧
    (s.img_raw.length = 400000 → (run rv ts k n s).img_raw.length = 400000) :=
  ⟨iterBody_img_len rv1 t s, by norm_num [cols, rows], run_img_len rv ts k n s⟩

/-- Claim C7 witness: from the initial state, whose buffer is the
zero-initialised 400000-byte static array, one iteration keeps the length
at 400000. -/
theorem frame_length_invariant_witness :
    (run rvzero czero 0 1 st0).img_raw.length = 400000 :=
  (frame_length_invariant czero 0 st0 rvzero czero 0 1).2.2
    (show (List.replicate 400000 (0 : Nat)).length = 400000 from
      List.length_replicate _ _)

/-- Claim C8: the loop body never changes the streaming flag; when the flag
is false no further iteration begins and main falls through with exit code
0; when the flag is true the loop runs one more iteration (the flag is
checked once per iteration boundary) and, while it stays true, the program
never terminates on its own. -/
theorem streaming_flag_controls_loop (rv : Nat → Nat → Nat) (ts : Nat → Nat)
    (k n : Nat) (s : ProgState) (rv1 : Nat → Nat) (t : Nat) :
    (iterBody rv1 t s).streaming = s.streaming ∧
    (s.streaming = false → run rv ts k n s = s ∧ mainExit rv ts k n s = some 0) ∧
    (s.streaming = true → mainExit rv ts k (n + 1) s =
        mainExit rv ts (k + 1) n (iterBody (rv k) (ts k) s)) ∧
    (s.streaming = true → mainExit rv ts k 0 s = none) := by
  refine ⟨by simp [iterBody, presentStep], ?_, ?_, ?_⟩
  · intro h
    cases n <;> simp [run, mainExit, h]
  · intro h
    simp [mainExit, h]
  · intro h
    simp [mainExit, h]

/-- Claim C8 witness: with the flag flipped off, two budgeted iterations
change nothing and main exits with code 0; with the flag on, the next
iteration proceeds and a still-running loop yields no exit code. -/
theorem streaming_flag_controls_loop_witness :
    (run rvzero czero 0 2 stOff = stOff ∧ mainExit rvzero czero 0 2 stOff = some 0) ∧
    mainExit rvzero czero 0 1 st0 = mainExit rvzero czero 1 0 (iterBody (rvzero 0) (czero 0) st0) ∧
    mainExit rvzero czero 0 0 st0 = none :=
  ⟨(streaming_flag_controls_loop rvzero czero 0 2 stOff czero 0).2.1 rfl,
   (streaming_flag_controls_loop rvzero czero 0 0 st0 czero 0).2.2.1 rfl,
   (streaming_flag_controls_loop rvzero czero 0 0 st0 czero 0).2.2.2 rfl⟩

/-- Constructing the image wrapper inside the iteration produces exactly
the wrapper one would construct once before the loop, since dimensions,
pixel format and the wrapped buffer never change. -/
theorem iterBody_eq_hoisted (rv1 : Nat → Nat) (t : Nat) (s : ProgState) :
    iterBody rv1 t s = iterBodyHoisted ⟨rows, cols, 1⟩ rv1 t s := rfl

/-- The per-iteration-wrapper loop and the hoisted-wrapper loop compute the
same state, for every fuel, iteration index and starting state. -/
theorem run_eq_runHoisted (rv : Nat → Nat → Nat) (ts : Nat → Nat) :
    ∀ n k s, run rv ts k n s = runHoisted ⟨rows, cols, 1⟩ rv ts k n s := by
  intro n
  induction n with
  | zero => intro k s; rfl
  | succ n ih =>
    intro k s
    simp only [run, runHoisted]
    by_cases hs : s.streaming
    · rw [if_pos hs, if_pos hs, iterBody_eq_hoisted, ih]
    · rw [if_neg hs, if_neg hs]

/-- The two loop variants also agree on the exit behaviour of main. -/
theorem mainExit_eq_hoisted (rv : Nat → Nat → Nat) (ts : Nat → Nat) :
    ∀ n k s, mainExit rv ts k n s = mainExitHoisted ⟨rows, cols, 1⟩ rv ts k n s := by
  intro n
  induction n with
  | zero => intro k s; rfl
  | succ n ih =>
    intro k s
    simp only [mainExit, mainExitHoisted]
    by_cases hs : s.streaming
    · rw [if_pos hs, if_pos hs, iterBody_eq_hoisted, ih]
    · rw [if_neg hs, if_neg hs]

/-- Claim C9: hoisting the construction of the image wrapper out of the
loop yields a program with identical observable behaviour: every iteration
produces the same complete state (same displayed pixels, same console
output, same buffer) and the same exit behaviour, because the dimensions
and the wrapped buffer never change. -/
theorem hoisted_wrapper_equivalent (rv : Nat → Nat → Nat) (ts : Nat → Nat)
    (k n : Nat) (s : ProgState) (rv1 : Nat → Nat) (t : Nat) :
    iterBody rv1 t s = iterBodyHoisted ⟨rows, cols, 1⟩ rv1 t s ∧
    run rv ts k n s = runHoisted ⟨rows, cols, 1⟩ rv ts k n s ∧
    mainExit rv ts k n s = mainExitHoisted ⟨rows, cols, 1⟩ rv ts k n s :=
  ⟨iterBody_eq_hoisted rv1 t s, run_eq_runHoisted rv ts n k s,
   mainExit_eq_hoisted rv ts n k s⟩

end DisplaySpinnakerFrames
